import Mathlib

/-!
Verification development for the frame-extractor backend
(`backend/main.py`).  The service is an orchestration shim around an
external frame-extraction tool: it uploads a video, shells out to the
tool to dump JPEG frames into a per-job directory under the output
root, and serves the frames through a paginated listing endpoint and a
ZIP download endpoint.

The filesystem under the output root is the only state.  We embed it as
an explicit `FS` value: the set of existing directory paths plus the
files, each file given by its directory path, its name and its content.
The HTTP handlers `upload_video`, `list_images` and `download_zip`, and
the helpers `ffmpeg_extract` (command construction and its filesystem
effect) and `make_zip`, are translated function by function from the
source; side effects become explicit state passing, `HTTPException`
becomes `Except HError`, and the external tool invocation becomes a
parameter describing its outcome (success with the frames it wrote, or
failure with a diagnostic and the partially written frames).
-/

namespace FrameExtractor

/-- Path join, as `os.path.join` on relative components. -/
def joinPath (a b : String) : String := a ++ "/" ++ b

/-- The `OUTPUT_ROOT = "output"` constant of the source. -/
def OUTPUT_ROOT : String := "output"

/-- File contents: ordinary bytes (a byte string), or a ZIP archive.
An archive is modelled as the list of (entry name, entry data) pairs it
deterministically encodes, so two archives are byte-identical exactly
when their entry lists are equal. -/
inductive Content where
  | bytes (data : String)
  | zipData (entries : List (String × String))
deriving DecidableEq

/-- Filesystem state: the directory paths that exist, and the files as
(directory path, file name, content) triples.  Job directories in this
application contain only plain files, so nesting is not modelled. -/
structure FS where
  dirs : List String
  files : List (String × String × Content)
deriving DecidableEq

/-- Models `os.makedirs(d, exist_ok=True)`. -/
def mkdir (fs : FS) (d : String) : FS :=
  { fs with dirs := if d ∈ fs.dirs then fs.dirs else d :: fs.dirs }

/-- Writing a file: `open(path, "wb")` followed by `write`, overwriting
any previous file with the same directory and name. -/
def writeFile (fs : FS) (d n : String) (c : Content) : FS :=
  { fs with files := (d, n, c) :: fs.files.filter (fun t => !(t.1 == d && t.2.1 == n)) }

/-- Models `os.remove` on the file with directory `d` and name `n`. -/
def removeFile (fs : FS) (d n : String) : FS :=
  { fs with files := fs.files.filter (fun t => !(t.1 == d && t.2.1 == n)) }

/-- Reading the content of the file with directory `d` and name `n`. -/
def read_file (fs : FS) (d n : String) : Option Content :=
  (fs.files.find? (fun t => t.1 == d && t.2.1 == n)).map (fun t => t.2.2)

/-- The (name, content) pairs of the files in directory `d`. -/
def filesIn (fs : FS) (d : String) : List (String × Content) :=
  (fs.files.filter (fun t => t.1 == d)).map (fun t => t.2)

/-- Models `os.listdir(d)`: the names of the files in directory `d` (job
directories contain no subdirectories). -/
def listdir (fs : FS) (d : String) : List String :=
  (filesIn fs d).map (fun t => t.1)

/-- An `HTTPException(code, msg)` or error JSON response. -/
structure HError where
  code : Nat
  msg : String
deriving DecidableEq

/-- The JSON body returned by `list_images`. -/
structure ListResponse where
  images : List String
  page : Nat
  total_pages : Nat
  total : Nat
  page_size : Nat
deriving DecidableEq

/-- The `FileResponse` returned by `download_zip`: path of the served
file, suggested download filename, media type, and the bytes served. -/
structure DownloadResponse where
  path : String
  filename : String
  media_type : String
  content : Option Content
deriving DecidableEq

/-- Computes `math.ceil(a / b)` for natural `a` and positive natural `b`. -/
def ceilDiv (a b : Nat) : Nat := (a + b - 1) / b

/-- Python `f.endswith(suffix)`: code-point suffix test, computed on
the character lists so it evaluates inside the kernel. -/
def strEndsWith (s suffix : String) : Bool := suffix.data.isSuffixOf s.data

/-- Python `s[:n]`: the first `n` code points of `s`. -/
def strTake (s : String) (n : Nat) : String := String.mk (s.data.take n)

/-- Code-point lexicographic comparison of character lists; Python
compares `str` values exactly this way.  Structurally recursive so it
evaluates inside the kernel (`charListLe_iff` below shows it agrees
with the ambient order on `String`). -/
def charListLe : List Char → List Char → Bool
  | [], _ => true
  | _ :: _, [] => false
  | a :: as, b :: bs =>
    if a < b then true
    else if a = b then charListLe as bs
    else false

/-- Boolean string comparison backing `sortStrings`. -/
def strLe (a b : String) : Bool := charListLe a.data b.data

/-- Python `sorted` on a list of strings: the stable sort under the
code-point lexicographic order on strings. -/
def sortStrings (l : List String) : List String :=
  List.insertionSort (fun a b => strLe a b = true) l

/-- The `ffmpeg` filter expression chosen by `ffmpeg_extract`: a fixed
sampling rate in `all` mode, otherwise a scene-score threshold select.
The threshold is passed as its decimal rendering, matching the f-string
interpolation in the source. -/
def ffmpeg_vf (mode threshold : String) : String :=
  if mode = "all" then "fps=30"
  else "select=\x27gt(scene," ++ threshold ++ ")\x27,showinfo"

/-- The argument vector `cmd` built by `ffmpeg_extract`. -/
def ffmpeg_cmd (src_path dest_dir mode threshold : String) : List String :=
  ["ffmpeg", "-i", src_path, "-vf", ffmpeg_vf mode threshold,
   "-vsync", "vfr", "-qscale:v", "2", joinPath dest_dir "frame-%06d.jpg"]

/-- Outcome of the external `ffmpeg` process: on success the (name,
data) pairs of the frames it wrote; on failure the decoded stderr text
and the partially written frames it left behind. -/
inductive ExtractOutcome where
  | success (frames : List (String × String))
  | failure (stderr : String) (partialFrames : List (String × String))
deriving DecidableEq

/-- The frames physically written by the process, on either outcome
(on failure, partially written frames are left in place). -/
def framesOf : ExtractOutcome → List (String × String)
  | .success frames => frames
  | .failure _ partialFrames => partialFrames

/-- Writing a batch of frames into the destination directory. -/
def writeFrames (fs : FS) (dest : String) (frames : List (String × String)) : FS :=
  frames.foldl (fun acc nc => writeFile acc dest nc.1 (Content.bytes nc.2)) fs

/-- Filesystem effect of `ffmpeg_extract`: creates the destination
directory, runs the external process (which writes its frames into the
destination), and reports the stderr text when the process exited
non-zero (`subprocess.run(..., check=True)`). -/
def ffmpeg_extract (fs : FS) (dest : String) (outcome : ExtractOutcome) :
    FS × Option String :=
  let fs1 := mkdir fs dest
  match outcome with
  | .success frames => (writeFrames fs1 dest frames, none)
  | .failure stderr partialFrames => (writeFrames fs1 dest partialFrames, some stderr)

/-- The data of a file, as the zip writer reads it. -/
def fileData : Content → String
  | .bytes data => data
  | .zipData _ => ""

/-- The entry list `shutil.make_archive` packs for the job directory:
every file currently in the directory, in directory order. -/
def zipEntries (fs : FS) (job_id : String) : List (String × String) :=
  (filesIn fs (joinPath OUTPUT_ROOT job_id)).map (fun nc => (nc.1, fileData nc.2))

/-- Models `make_zip(job_dir)`: `shutil.make_archive(job_dir, "zip", job_dir)`
writes the archive of the job directory at `job_dir + ".zip"`, i.e. as
the file named `job_id ++ ".zip"` in the output root, adjacent to the
job directory; returns the updated filesystem and the archive path. -/
def make_zip (fs : FS) (job_id : String) : FS × String :=
  let fsOut := writeFile fs OUTPUT_ROOT (job_id ++ ".zip")
      (Content.zipData (zipEntries fs job_id))
  (fsOut, joinPath OUTPUT_ROOT job_id ++ ".zip")

/-- The 400 response raised by `upload_video` for a bad mode. -/
def invalidModeErr : HError :=
  { code := 400, msg := "mode must be \x27scene\x27 or \x27all\x27" }

/-- Handler for `POST /api/upload`.  Here `job_id` stands for the fresh `uuid4().hex`
token generated in the handler; `filename`/`video` are the uploaded
file's name and bytes; `outcome` is the external process result.
Validates the mode, creates the job directory, persists the upload to a
temporary file inside it, runs the extraction, removes the temporary
file in a `finally` block on both paths, and returns the job id or a
500 carrying the first 200 characters of the tool's stderr. -/
def upload_video (fs : FS) (job_id filename video mode : String)
    (outcome : ExtractOutcome) : FS × Except HError String :=
  if mode = "scene" ∨ mode = "all" then
    let job_dir := joinPath OUTPUT_ROOT job_id
    let fs1 := mkdir fs job_dir
    let fs2 := writeFile fs1 job_dir filename (Content.bytes video)
    let run := ffmpeg_extract fs2 job_dir outcome
    let fs4 := removeFile run.1 job_dir filename
    match run.2 with
    | some stderr =>
        (fs4, Except.error { code := 500, msg := "ffmpeg failed: " ++ strTake stderr 200 })
    | none => (fs4, Except.ok job_id)
  else (fs, Except.error invalidModeErr)

/-- Handler for `GET /api/images/job_id` with query parameters `page` (≥ 1) and
`limit` (1–500): 404 when the job directory does not exist, otherwise
the lexicographically sorted `.jpg` names, paginated. -/
def list_images (fs : FS) (job_id : String) (page limit : Nat) :
    Except HError ListResponse :=
  let job_dir := joinPath OUTPUT_ROOT job_id
  if job_dir ∈ fs.dirs then
    let all_images := sortStrings ((listdir fs job_dir).filter (fun f => strEndsWith f ".jpg"))
    let total := all_images.length
    let total_pages := max 1 (ceilDiv total limit)
    let start := (page - 1) * limit
    let urls := ((all_images.drop start).take limit).map
        (fun name => "/output/" ++ job_id ++ "/" ++ name)
    Except.ok { images := urls, page := page, total_pages := total_pages,
                total := total, page_size := limit }
  else Except.error { code := 404, msg := "job not found" }

/-- Handler for `GET /api/download/job_id`: 404 when the job directory does not
exist, otherwise builds (or rebuilds) the archive via `make_zip` and
serves it as `job_id ++ ".zip"`. -/
def download_zip (fs : FS) (job_id : String) : FS × Except HError DownloadResponse :=
  let job_dir := joinPath OUTPUT_ROOT job_id
  if job_dir ∈ fs.dirs then
    let built := make_zip fs job_id
    (built.1, Except.ok
      { path := built.2, filename := job_id ++ ".zip",
        media_type := "application/zip",
        content := read_file built.1 OUTPUT_ROOT (job_id ++ ".zip") })
  else (fs, Except.error { code := 404, msg := "job not found" })

/-- The `.jpg` file names of a job directory, before sorting. -/
def jpgNames (fs : FS) (job_id : String) : List String :=
  (listdir fs (joinPath OUTPUT_ROOT job_id)).filter (fun f => strEndsWith f ".jpg")

/-- The number of images the listing endpoint reports for a job. -/
def jpgCount (fs : FS) (job_id : String) : Nat := (jpgNames fs job_id).length

/-- The public URL under which the listing endpoint exposes a frame. -/
def urlOf (job_id name : String) : String := "/output/" ++ job_id ++ "/" ++ name

/-- A concrete filesystem with one job of three frames, for witnesses. -/
def fsW : FS :=
  { dirs := ["output", "output/jobw"],
    files := [("output/jobw", "frame-000001.jpg", Content.bytes "a"),
              ("output/jobw", "frame-000002.jpg", Content.bytes "b"),
              ("output/jobw", "frame-000003.jpg", Content.bytes "c")] }

/-- A concrete filesystem with one job of ten frames, for witnesses. -/
def fsTen : FS :=
  { dirs := ["output", "output/jobt"],
    files := [("output/jobt", "frame-000001.jpg", Content.bytes "x"),
              ("output/jobt", "frame-000002.jpg", Content.bytes "x"),
              ("output/jobt", "frame-000003.jpg", Content.bytes "x"),
              ("output/jobt", "frame-000004.jpg", Content.bytes "x"),
              ("output/jobt", "frame-000005.jpg", Content.bytes "x"),
              ("output/jobt", "frame-000006.jpg", Content.bytes "x"),
              ("output/jobt", "frame-000007.jpg", Content.bytes "x"),
              ("output/jobt", "frame-000008.jpg", Content.bytes "x"),
              ("output/jobt", "frame-000009.jpg", Content.bytes "x"),
              ("output/jobt", "frame-000010.jpg", Content.bytes "x")] }

/-- Decidable equality of handler results, for concrete evaluation. -/
instance {ε α : Type} [DecidableEq ε] [DecidableEq α] : DecidableEq (Except ε α) := fun x y =>
  match x, y with
  | .ok a, .ok b =>
      if h : a = b then .isTrue (h ▸ rfl) else .isFalse (fun hc => h (Except.ok.inj hc))
  | .error a, .error b =>
      if h : a = b then .isTrue (h ▸ rfl) else .isFalse (fun hc => h (Except.error.inj hc))
  | .ok _, .error _ => .isFalse Except.noConfusion
  | .error _, .ok _ => .isFalse Except.noConfusion

/-- The freshly initialised filesystem: only the output root exists. -/
def fs0 : FS := { dirs := ["output"], files := [] }

-- ------------------------------------------------------------------
-- General lemmas about the embedded operations
-- ------------------------------------------------------------------

theorem charListLe_iff_lex (as bs : List Char) :
    charListLe as bs = true ↔ (List.Lex (· < ·) as bs ∨ as = bs) := by
  induction as generalizing bs with
  | nil =>
    cases bs with
    | nil => exact iff_of_true rfl (Or.inr rfl)
    | cons b bt => exact iff_of_true rfl (Or.inl List.Lex.nil)
  | cons a at' ih =>
    cases bs with
    | nil =>
      refine iff_of_false (fun h => nomatch h) (fun h => ?_)
      rcases h with hlex | he
      · exact List.Lex.not_nil_right _ _ hlex
      · exact List.noConfusion he
    | cons b bt =>
      simp only [charListLe]
      by_cases hab : a < b
      · rw [if_pos hab]
        exact iff_of_true rfl (Or.inl (List.Lex.rel hab))
      · rw [if_neg hab]
        by_cases heq : a = b
        · subst heq
          rw [if_pos rfl, ih bt]
          constructor
          · intro h
            rcases h with hlex | he
            · exact Or.inl (List.Lex.cons hlex)
            · exact Or.inr (by rw [he])
          · intro h
            rcases h with hlex | he
            · cases hlex with
              | cons h2 => exact Or.inl h2
              | rel h2 => exact absurd h2 (lt_irrefl a)
            · injection he with h1 h2
              exact Or.inr h2
        · rw [if_neg heq]
          refine iff_of_false (fun h => nomatch h) (fun h => ?_)
          rcases h with hlex | he
          · cases hlex with
            | cons h2 => exact heq rfl
            | rel h2 => exact hab h2
          · injection he with h1 h2
            exact heq h1

theorem strLe_iff (a b : String) : strLe a b = true ↔ a ≤ b := by
  rw [String.le_iff_toList_le, le_iff_lt_or_eq]
  exact charListLe_iff_lex a.data b.data

theorem sortStrings_perm (l : List String) : (sortStrings l).Perm l :=
  List.perm_insertionSort (fun a b => strLe a b = true) l

theorem sortStrings_sorted (l : List String) :
    (sortStrings l).Sorted (fun a b : String => a ≤ b) := by
  haveI : IsTotal String (fun a b => strLe a b = true) := ⟨fun a b => by
    rw [strLe_iff, strLe_iff]
    exact le_total a b⟩
  haveI : IsTrans String (fun a b => strLe a b = true) := ⟨fun a b c hab hbc => by
    rw [strLe_iff] at *
    exact le_trans hab hbc⟩
  have h := List.sorted_insertionSort (fun a b => strLe a b = true) l
  show List.Pairwise _ _
  exact List.Pairwise.imp (fun hab => (strLe_iff _ _).mp hab) h

/-- Under an existing job directory, the listing endpoint succeeds and
its body is the sorted-slice record. -/
theorem list_images_ok (fs : FS) (job_id : String) (page limit : Nat)
    (h : joinPath OUTPUT_ROOT job_id ∈ fs.dirs) :
    list_images fs job_id page limit = Except.ok
      { images := (((sortStrings (jpgNames fs job_id)).drop ((page - 1) * limit)).take limit).map
          (urlOf job_id),
        page := page,
        total_pages := max 1 (ceilDiv (jpgCount fs job_id) limit),
        total := jpgCount fs job_id,
        page_size := limit } := by
  have hlen := (sortStrings_perm ((listdir fs (joinPath OUTPUT_ROOT job_id)).filter
      (fun f => strEndsWith f ".jpg"))).length_eq
  simp only [list_images]
  rw [if_pos h, hlen]
  rfl

theorem ceilDiv_zero_left (l : Nat) (hl : 0 < l) : ceilDiv 0 l = 0 := by
  unfold ceilDiv
  exact Nat.div_eq_of_lt (by omega)

theorem one_le_ceilDiv (t l : Nat) (ht : 0 < t) (hl : 0 < l) : 1 ≤ ceilDiv t l := by
  unfold ceilDiv
  rw [Nat.one_le_div_iff hl]
  omega

theorem max_one_ceilDiv (t l : Nat) (hl : 0 < l) :
    max 1 (ceilDiv t l) = if t = 0 then 1 else ceilDiv t l := by
  by_cases ht : t = 0
  · subst ht
    rw [if_pos rfl, ceilDiv_zero_left l hl]
    omega
  · rw [if_neg ht]
    exact Nat.max_eq_right (one_le_ceilDiv t l (by omega) hl)

theorem le_ceilDiv_mul (t l : Nat) (hl : 0 < l) : t ≤ ceilDiv t l * l := by
  unfold ceilDiv
  have h2 := Nat.div_add_mod (t + l - 1) l
  have h3 := Nat.mod_lt (t + l - 1) hl
  rw [Nat.mul_comm]
  generalize hq : (t + l - 1) / l = q at h2 ⊢
  generalize hr : (t + l - 1) % l = r at h2 h3
  clear hq hr
  generalize hA : l * q = A at h2 ⊢
  omega

-- ------------------------------------------------------------------
-- Claims
-- ------------------------------------------------------------------

/-- Claim C1: for every job whose directory exists, every page number
p ≥ 1 and every page size 1 ≤ L ≤ 500, the listing returns total_pages
equal to ceiling(total / L) where total is the number of images in the
job directory, except that total_pages is 1 (not 0) when total = 0. -/
theorem claim_C1 (fs : FS) (job_id : String) (page limit : Nat)
    (hdir : joinPath OUTPUT_ROOT job_id ∈ fs.dirs)
    (hp : 1 ≤ page) (hl : 1 ≤ limit) (hu : limit ≤ 500) :
    (list_images fs job_id page limit).map ListResponse.total_pages =
      Except.ok (if jpgCount fs job_id = 0 then 1
                 else ceilDiv (jpgCount fs job_id) limit) := by
  rw [list_images_ok fs job_id page limit hdir]
  simp only [Except.map]
  rw [max_one_ceilDiv _ _ (by omega)]

theorem claim_C1_witness :
    (list_images fsW "jobw" 1 2).map ListResponse.total_pages =
      Except.ok (if jpgCount fsW "jobw" = 0 then 1
                 else ceilDiv (jpgCount fsW "jobw") 2) :=
  claim_C1 fsW "jobw" 1 2 (by decide) (by decide) (by decide) (by decide)

/-- Claim C2: for an existing job and a page number strictly beyond
total_pages (page size in range), the listing succeeds with an empty
image list while still reporting the correct total and total_pages. -/
theorem claim_C2 (fs : FS) (job_id : String) (page limit : Nat)
    (hdir : joinPath OUTPUT_ROOT job_id ∈ fs.dirs)
    (hl : 1 ≤ limit) (hu : limit ≤ 500)
    (hp : max 1 (ceilDiv (jpgCount fs job_id) limit) < page) :
    (list_images fs job_id page limit).map
        (fun r => (r.images, r.total, r.total_pages)) =
      Except.ok ([], jpgCount fs job_id,
                 max 1 (ceilDiv (jpgCount fs job_id) limit)) := by
  rw [list_images_ok fs job_id page limit hdir]
  simp only [Except.map]
  have hlen : (sortStrings (jpgNames fs job_id)).length = jpgCount fs job_id :=
    (sortStrings_perm _).length_eq
  have hbound : (sortStrings (jpgNames fs job_id)).length ≤ (page - 1) * limit := by
    rw [hlen]
    have h1 : ceilDiv (jpgCount fs job_id) limit ≤ page - 1 := by omega
    calc jpgCount fs job_id
        ≤ ceilDiv (jpgCount fs job_id) limit * limit := le_ceilDiv_mul _ _ (by omega)
      _ ≤ (page - 1) * limit := Nat.mul_le_mul_right _ h1
  rw [List.drop_eq_nil_of_le hbound]
  simp

theorem claim_C2_witness :
    (list_images fsTen "jobt" 3 50).map (fun r => (r.images, r.total, r.total_pages)) =
      Except.ok ([], 10, 1) :=
  (claim_C2 fsTen "jobt" 3 50 (by decide) (by decide) (by decide) (by decide)).trans
    (by decide)

/-- Claim C4: for an existing job, the listing enumerates the image
files sorted lexicographically by filename, and the returned page is
the contiguous slice of that sorted sequence from index (page-1)*limit
of length at most limit, mapped to /output/ URLs. -/
theorem claim_C4 (fs : FS) (job_id : String) (page limit : Nat)
    (hdir : joinPath OUTPUT_ROOT job_id ∈ fs.dirs)
    (hp : 1 ≤ page) (hl : 1 ≤ limit) :
    (sortStrings (jpgNames fs job_id)).Sorted (fun a b : String => a ≤ b) ∧
    (sortStrings (jpgNames fs job_id)).Perm (jpgNames fs job_id) ∧
    (list_images fs job_id page limit).map ListResponse.images =
      Except.ok ((((sortStrings (jpgNames fs job_id)).drop ((page - 1) * limit)).take
        limit).map (urlOf job_id)) ∧
    ∀ r, list_images fs job_id page limit = Except.ok r → r.images.length ≤ limit := by
  refine ⟨sortStrings_sorted _, sortStrings_perm _, ?_, ?_⟩
  · rw [list_images_ok fs job_id page limit hdir]
    rfl
  · intro r hr
    rw [list_images_ok fs job_id page limit hdir] at hr
    injection hr with hr
    subst hr
    simp only [List.length_map, List.length_take]
    omega

theorem claim_C4_witness :
    (list_images fsW "jobw" 1 2).map ListResponse.images =
      Except.ok ["/output/jobw/frame-000001.jpg", "/output/jobw/frame-000002.jpg"] :=
  ((claim_C4 fsW "jobw" 1 2 (by decide) (by decide) (by decide)).2.2.1).trans (by decide)

/-- Claim C5: for a job identity with no directory under the output
root, both the listing and the download fail with 404 job not found,
and the download leaves the filesystem unchanged, so no directory and
no archive is created (the listing is read-only by construction). -/
theorem claim_C5 (fs : FS) (job_id : String) (page limit : Nat)
    (hdir : joinPath OUTPUT_ROOT job_id ∉ fs.dirs) :
    list_images fs job_id page limit =
      Except.error { code := 404, msg := "job not found" } ∧
    download_zip fs job_id =
      (fs, Except.error { code := 404, msg := "job not found" }) := by
  constructor
  · simp only [list_images]
    rw [if_neg hdir]
  · simp only [download_zip]
    rw [if_neg hdir]

theorem claim_C5_witness :
    list_images fs0 "ghost" 1 50 =
      Except.error { code := 404, msg := "job not found" } ∧
    download_zip fs0 "ghost" =
      (fs0, Except.error { code := 404, msg := "job not found" }) :=
  claim_C5 fs0 "ghost" 1 50 (by decide)

/-- Claim C6: the upload fails with the 400 invalid-mode error exactly
when the supplied mode is neither scene nor all, and in that case the
filesystem is untouched: no job directory is created. -/
theorem claim_C6 (fs : FS) (job_id filename video mode : String) (outcome : ExtractOutcome) :
    ((upload_video fs job_id filename video mode outcome).2 =
        Except.error invalidModeErr ↔ ¬(mode = "scene" ∨ mode = "all")) ∧
    (¬(mode = "scene" ∨ mode = "all") →
      (upload_video fs job_id filename video mode outcome).1 = fs) := by
  by_cases hm : mode = "scene" ∨ mode = "all"
  · have hne : (upload_video fs job_id filename video mode outcome).2 ≠
        Except.error invalidModeErr := by
      unfold upload_video
      rw [if_pos hm]
      cases outcome with
      | success frames =>
        intro habs
        exact Except.noConfusion habs
      | failure stderr partialFrames =>
        intro habs
        have hmsg := congrArg HError.code (Except.error.inj habs)
        simp only [invalidModeErr] at hmsg
        exact absurd hmsg (by decide)
    exact ⟨⟨fun habs => absurd habs hne, fun h => absurd hm h⟩, fun h => absurd hm h⟩
  · constructor
    · unfold upload_video
      rw [if_neg hm]
      exact ⟨fun _ => hm, fun _ => rfl⟩
    · intro h
      unfold upload_video
      rw [if_neg hm]

theorem claim_C6_witness :
    (upload_video fs0 "j" "v.mp4" "data" "bogus" (ExtractOutcome.success [])).2 =
      Except.error invalidModeErr ∧
    (upload_video fs0 "j" "v.mp4" "data" "bogus" (ExtractOutcome.success [])).1 = fs0 := by
  have h := claim_C6 fs0 "j" "v.mp4" "data" "bogus" (ExtractOutcome.success [])
  exact ⟨h.1.mpr (by decide), h.2 (by decide)⟩

theorem find_of_filter {α : Type} (p q : α → Bool) (l : List α)
    (h : ∀ a, q a = true → p a = true) :
    (l.filter p).find? q = l.find? q := by
  induction l with
  | nil => rfl
  | cons a t ih =>
    rw [List.filter_cons]
    by_cases hq : q a = true
    · rw [if_pos (h a hq), List.find?_cons_of_pos _ hq, List.find?_cons_of_pos _ hq]
    · rw [List.find?_cons_of_neg _ hq]
      by_cases hp : p a = true
      · rw [if_pos hp, List.find?_cons_of_neg _ hq, ih]
      · rw [if_neg hp, ih]

theorem keep_pred (d n d2 n2 : String) (h : ¬(d2 = d ∧ n2 = n)) :
    ∀ t : String × String × Content, (t.1 == d2 && t.2.1 == n2) = true →
      (!(t.1 == d && t.2.1 == n)) = true := by
  intro t ht
  simp only [Bool.and_eq_true, beq_iff_eq] at ht
  obtain ⟨h1, h2⟩ := ht
  subst h1
  subst h2
  by_cases hd : t.1 = d
  · have hn : t.2.1 ≠ n := fun hn => h ⟨hd, hn⟩
    simp [hd, hn]
  · simp [hd]

theorem read_writeFile_same (fs : FS) (d n : String) (c : Content) :
    read_file (writeFile fs d n c) d n = some c := by
  simp only [read_file, writeFile]
  rw [List.find?_cons_of_pos]
  · rfl
  · simp

theorem read_writeFile_other (fs : FS) (d n d2 n2 : String) (c : Content)
    (h : ¬(d2 = d ∧ n2 = n)) :
    read_file (writeFile fs d n c) d2 n2 = read_file fs d2 n2 := by
  simp only [read_file, writeFile]
  rw [List.find?_cons_of_neg, find_of_filter _ _ _ (keep_pred d n d2 n2 h)]
  simp only [Bool.and_eq_true, beq_iff_eq]
  intro hc
  exact h ⟨hc.1.symm, hc.2.symm⟩

theorem read_removeFile_same (fs : FS) (d n : String) :
    read_file (removeFile fs d n) d n = none := by
  simp only [read_file, removeFile]
  have hnone : (fs.files.filter (fun t => !(t.1 == d && t.2.1 == n))).find?
      (fun t => t.1 == d && t.2.1 == n) = none := by
    rw [List.find?_eq_none]
    intro x hx
    have hkeep := List.of_mem_filter hx
    simp only [Bool.not_eq_true'] at hkeep
    simp [hkeep]
  rw [hnone]
  rfl

theorem read_removeFile_other (fs : FS) (d n d2 n2 : String)
    (h : ¬(d2 = d ∧ n2 = n)) :
    read_file (removeFile fs d n) d2 n2 = read_file fs d2 n2 := by
  simp only [read_file, removeFile]
  rw [find_of_filter _ _ _ (keep_pred d n d2 n2 h)]

theorem writeFrames_cons (fs : FS) (d : String) (nc : String × String)
    (t : List (String × String)) :
    writeFrames fs d (nc :: t) =
      writeFrames (writeFile fs d nc.1 (Content.bytes nc.2)) d t := rfl

theorem read_writeFrames_untouched (frames : List (String × String)) (fs : FS)
    (d d2 n2 : String) (h : ∀ nc ∈ frames, ¬(d2 = d ∧ n2 = nc.1)) :
    read_file (writeFrames fs d frames) d2 n2 = read_file fs d2 n2 := by
  induction frames generalizing fs with
  | nil => rfl
  | cons nc t ih =>
    rw [writeFrames_cons, ih _ (fun mc hmc => h mc (List.mem_cons_of_mem _ hmc)),
        read_writeFile_other _ _ _ _ _ _ (h nc (List.mem_cons_self _ _))]

theorem read_writeFrames_mem (frames : List (String × String)) (fs : FS)
    (d n c : String) (hnd : (frames.map Prod.fst).Nodup) (hmem : (n, c) ∈ frames) :
    read_file (writeFrames fs d frames) d n = some (Content.bytes c) := by
  induction frames generalizing fs with
  | nil => exact absurd hmem (List.not_mem_nil _)
  | cons nc t ih =>
    rw [writeFrames_cons]
    rcases List.mem_cons.mp hmem with he | hmem2
    · cases he.symm
      have hn : n ∉ t.map Prod.fst := by
        simp only [List.map_cons, List.nodup_cons] at hnd
        exact hnd.1
      rw [read_writeFrames_untouched t _ d d n
          (fun mc hmc hcon => hn (hcon.2 ▸ List.mem_map_of_mem Prod.fst hmc))]
      exact read_writeFile_same fs d n _
    · have hnd2 : (t.map Prod.fst).Nodup := by
        simp only [List.map_cons, List.nodup_cons] at hnd
        exact hnd.2
      exact ih _ hnd2 hmem2

/-- The filesystem produced by a mode-validated upload: job directory
created, temp file written, frames written by the process, temp file
removed, on both outcomes. -/
theorem upload_video_fs (fs : FS) (job_id filename video mode : String)
    (outcome : ExtractOutcome) (hm : mode = "scene" ∨ mode = "all") :
    (upload_video fs job_id filename video mode outcome).1 =
      removeFile
        (writeFrames
          (mkdir (writeFile (mkdir fs (joinPath OUTPUT_ROOT job_id))
            (joinPath OUTPUT_ROOT job_id) filename (Content.bytes video))
            (joinPath OUTPUT_ROOT job_id))
          (joinPath OUTPUT_ROOT job_id) (framesOf outcome))
        (joinPath OUTPUT_ROOT job_id) filename := by
  unfold upload_video
  rw [if_pos hm]
  cases outcome <;> rfl

/-- Claim C7: for every upload that reaches the extraction step, the
temporary source file inside the job directory is deleted before the
operation returns, on both the success and the failure path, while the
extracted frame files are left in place with their contents (frame
names are pairwise distinct and distinct from the temp file name). -/
theorem claim_C7 (fs : FS) (job_id filename video mode : String)
    (outcome : ExtractOutcome) (hm : mode = "scene" ∨ mode = "all")
    (hnd : ((framesOf outcome).map Prod.fst).Nodup)
    (hfn : filename ∉ (framesOf outcome).map Prod.fst) :
    read_file (upload_video fs job_id filename video mode outcome).1
        (joinPath OUTPUT_ROOT job_id) filename = none ∧
    ∀ n c, (n, c) ∈ framesOf outcome →
      read_file (upload_video fs job_id filename video mode outcome).1
        (joinPath OUTPUT_ROOT job_id) n = some (Content.bytes c) := by
  rw [upload_video_fs fs job_id filename video mode outcome hm]
  constructor
  · exact read_removeFile_same _ _ _
  · intro n c hmem
    have hne : n ≠ filename := by
      intro he
      exact hfn (he ▸ List.mem_map_of_mem Prod.fst hmem)
    rw [read_removeFile_other _ _ _ _ _ (fun hcon => hne hcon.2)]
    exact read_writeFrames_mem _ _ _ _ _ hnd hmem

theorem claim_C7_witness :
    read_file (upload_video fs0 "j7" "clip.mp4" "vid" "scene"
        (ExtractOutcome.success [("frame-000001.jpg", "f1")])).1
      (joinPath OUTPUT_ROOT "j7") "clip.mp4" = none ∧
    read_file (upload_video fs0 "j7" "clip.mp4" "vid" "scene"
        (ExtractOutcome.success [("frame-000001.jpg", "f1")])).1
      (joinPath OUTPUT_ROOT "j7") "frame-000001.jpg" = some (Content.bytes "f1") := by
  have h := claim_C7 fs0 "j7" "clip.mp4" "vid" "scene"
      (ExtractOutcome.success [("frame-000001.jpg", "f1")])
      (by decide) (by decide) (by decide)
  exact ⟨h.1, h.2 "frame-000001.jpg" "f1" (by decide)⟩

theorem filter_of_filter {α : Type} (p q : α → Bool) (l : List α)
    (h : ∀ a, q a = true → p a = true) :
    (l.filter p).filter q = l.filter q := by
  induction l with
  | nil => rfl
  | cons a t ih =>
    by_cases hp : p a = true
    · rw [List.filter_cons, if_pos hp]
      rw [List.filter_cons, List.filter_cons, ih]
    · have hq : ¬ q a = true := fun hq2 => hp (h a hq2)
      rw [List.filter_cons, if_neg hp, List.filter_cons, if_neg hq, ih]

theorem filesIn_writeFile_other (fs : FS) (d n : String) (c : Content) (d2 : String)
    (h : d ≠ d2) :
    filesIn (writeFile fs d n c) d2 = filesIn fs d2 := by
  simp only [filesIn, writeFile]
  have hd : ¬ (((d, n, c) : String × String × Content).1 == d2) = true := by simp [h]
  rw [List.filter_cons, if_neg hd, filter_of_filter]
  intro t ht
  simp only [beq_iff_eq] at ht
  subst ht
  have hne : (t.1 == d) = false := beq_eq_false_iff_ne.mpr (Ne.symm h)
  simp [hne]

theorem output_root_ne_job_dir (job_id : String) :
    OUTPUT_ROOT ≠ joinPath OUTPUT_ROOT job_id := by
  intro h
  have hlen := congrArg String.length h
  simp only [OUTPUT_ROOT, joinPath, String.length_append] at hlen
  have h6 : ("output" : String).length = 6 := rfl
  have h1 : ("/" : String).length = 1 := rfl
  rw [h6, h1] at hlen
  omega

theorem zipEntries_writeFile_root (fs : FS) (job_id n : String) (c : Content) :
    zipEntries (writeFile fs OUTPUT_ROOT n c) job_id = zipEntries fs job_id := by
  unfold zipEntries
  rw [filesIn_writeFile_other fs OUTPUT_ROOT n c _ (output_root_ne_job_dir job_id)]

/-- Under an existing job directory, the download endpoint rebuilds the
archive from the current directory contents, stores it as the file
`job_id ++ ".zip"` of the output root, and serves it. -/
theorem download_zip_ok (fs : FS) (job_id : String)
    (h : joinPath OUTPUT_ROOT job_id ∈ fs.dirs) :
    download_zip fs job_id =
      (writeFile fs OUTPUT_ROOT (job_id ++ ".zip")
         (Content.zipData (zipEntries fs job_id)),
       Except.ok { path := joinPath OUTPUT_ROOT job_id ++ ".zip",
                   filename := job_id ++ ".zip",
                   media_type := "application/zip",
                   content := some (Content.zipData (zipEntries fs job_id)) }) := by
  simp only [download_zip, make_zip]
  rw [if_pos h, read_writeFile_same]

/-- Claim C8: two download invocations with no intervening change to
the job directory yield byte-identical archive contents; the archive is
a function of the job directory contents at request time, is named
job_id ++ ".zip", is stored as a file of the output root (adjacent to
the job directory), and building it leaves the job directory contents
unchanged. -/
theorem claim_C8 (fs : FS) (job_id : String)
    (hdir : joinPath OUTPUT_ROOT job_id ∈ fs.dirs) :
    (download_zip fs job_id).2.map DownloadResponse.content =
      Except.ok (some (Content.zipData (zipEntries fs job_id))) ∧
    (download_zip (download_zip fs job_id).1 job_id).2.map DownloadResponse.content =
      Except.ok (some (Content.zipData (zipEntries fs job_id))) ∧
    (download_zip fs job_id).2.map DownloadResponse.filename =
      Except.ok (job_id ++ ".zip") ∧
    (download_zip fs job_id).2.map DownloadResponse.path =
      Except.ok (joinPath OUTPUT_ROOT job_id ++ ".zip") ∧
    read_file (download_zip fs job_id).1 OUTPUT_ROOT (job_id ++ ".zip") =
      some (Content.zipData (zipEntries fs job_id)) ∧
    filesIn (download_zip fs job_id).1 (joinPath OUTPUT_ROOT job_id) =
      filesIn fs (joinPath OUTPUT_ROOT job_id) := by
  have h1 := download_zip_ok fs job_id hdir
  have hdir2 : joinPath OUTPUT_ROOT job_id ∈
      (writeFile fs OUTPUT_ROOT (job_id ++ ".zip")
        (Content.zipData (zipEntries fs job_id))).dirs := hdir
  have h2 := download_zip_ok _ job_id hdir2
  rw [h1]
  refine ⟨rfl, ?_, rfl, rfl, read_writeFile_same _ _ _ _,
          filesIn_writeFile_other _ _ _ _ _ (output_root_ne_job_dir job_id)⟩
  rw [h2, zipEntries_writeFile_root]
  rfl

theorem claim_C8_witness :
    (download_zip fsW "jobw").2.map DownloadResponse.content =
      Except.ok (some (Content.zipData (zipEntries fsW "jobw"))) ∧
    (download_zip (download_zip fsW "jobw").1 "jobw").2.map DownloadResponse.content =
      Except.ok (some (Content.zipData (zipEntries fsW "jobw"))) :=
  ⟨(claim_C8 fsW "jobw" (by decide)).1, (claim_C8 fsW "jobw" (by decide)).2.1⟩

/-- Claim C9: the external tool is invoked with exactly the argument
vector tool, -i, source, filter flag, expression, sync flag, vfr,
quality flag, 2, dest/frame-%06d.jpg, where the expression selects
frames whose scene score exceeds the threshold in scene mode and a
fixed 30 fps sampling rate in all mode (the source spells the filter,
sync and quality flags -vf, -vsync and -qscale:v). -/
theorem claim_C9 (src dest mode threshold : String) :
    (mode = "scene" →
      ffmpeg_cmd src dest mode threshold =
        ["ffmpeg", "-i", src, "-vf",
         "select=\x27gt(scene," ++ threshold ++ ")\x27,showinfo",
         "-vsync", "vfr", "-qscale:v", "2", dest ++ "/" ++ "frame-%06d.jpg"]) ∧
    (mode = "all" →
      ffmpeg_cmd src dest mode threshold =
        ["ffmpeg", "-i", src, "-vf", "fps=30",
         "-vsync", "vfr", "-qscale:v", "2", dest ++ "/" ++ "frame-%06d.jpg"]) := by
  constructor
  · intro h
    subst h
    unfold ffmpeg_cmd ffmpeg_vf joinPath
    rw [if_neg (by decide : ¬ ("scene" : String) = "all")]
  · intro h
    subst h
    unfold ffmpeg_cmd ffmpeg_vf joinPath
    rw [if_pos rfl]

theorem claim_C9_witness :
    ffmpeg_cmd "in.mp4" "outdir" "scene" "0.3" =
      ["ffmpeg", "-i", "in.mp4", "-vf", "select=\x27gt(scene,0.3)\x27,showinfo",
       "-vsync", "vfr", "-qscale:v", "2", "outdir/frame-%06d.jpg"] :=
  ((claim_C9 "in.mp4" "outdir" "scene" "0.3").1 rfl).trans (by decide)

theorem jpg_filter_aux (L : List (String × String × Content)) (d n : String)
    (hn : strEndsWith n ".jpg" = false) :
    ((((L.filter (fun t => !(t.1 == d && t.2.1 == n))).filter
        (fun t => t.1 == d)).map (fun t => t.2)).map (fun t => t.1)).filter
      (fun f => strEndsWith f ".jpg") =
    (((L.filter (fun t => t.1 == d)).map (fun t => t.2)).map (fun t => t.1)).filter
      (fun f => strEndsWith f ".jpg") := by
  simp only [List.map_map, List.filter_map, List.filter_filter]
  refine congrArg (List.map _) (List.filter_congr ?_)
  intro a _
  by_cases hend : strEndsWith a.2.1 ".jpg" = true
  · by_cases hd2 : (a.1 == d) = true
    · have hne : (a.2.1 == n) = false := by
        rw [beq_eq_false_iff_ne]
        intro he
        rw [he, hn] at hend
        exact Bool.noConfusion hend
      simp [Function.comp, hend, hd2, hne]
    · simp [Function.comp, hend, hd2]
  · simp [Function.comp, hend]

theorem jpgNames_writeFile (fs : FS) (job_id n : String) (c : Content)
    (hn : strEndsWith n ".jpg" = false) :
    jpgNames (writeFile fs (joinPath OUTPUT_ROOT job_id) n c) job_id =
      jpgNames fs job_id := by
  simp only [jpgNames, listdir, filesIn, writeFile]
  rw [List.filter_cons]
  rw [if_pos (by simp : ((((joinPath OUTPUT_ROOT job_id), n, c) :
        String × String × Content).1 == joinPath OUTPUT_ROOT job_id) = true)]
  simp only [List.map_cons]
  rw [List.filter_cons, if_neg (by simp [hn])]
  exact jpg_filter_aux fs.files (joinPath OUTPUT_ROOT job_id) n hn

/-- Claim C10: the listing counts and returns only names ending in
.jpg: writing any file whose name does not end in .jpg into the job
directory leaves the listing response unchanged, and every returned URL
is built from a name ending in .jpg. -/
theorem claim_C10 (fs : FS) (job_id n : String) (c : Content) (page limit : Nat)
    (hn : ¬ strEndsWith n ".jpg" = true) :
    list_images (writeFile fs (joinPath OUTPUT_ROOT job_id) n c) job_id page limit =
      list_images fs job_id page limit ∧
    ∀ r, list_images fs job_id page limit = Except.ok r →
      ∀ u ∈ r.images, ∃ m, strEndsWith m ".jpg" = true ∧ u = urlOf job_id m := by
  have hn' : strEndsWith n ".jpg" = false := by
    cases hb : strEndsWith n ".jpg"
    · rfl
    · exact absurd hb hn
  constructor
  · by_cases hdir : joinPath OUTPUT_ROOT job_id ∈ fs.dirs
    · have hdir2 : joinPath OUTPUT_ROOT job_id ∈
          (writeFile fs (joinPath OUTPUT_ROOT job_id) n c).dirs := hdir
      have hjpg := jpgNames_writeFile fs job_id n c hn'
      have hcnt : jpgCount (writeFile fs (joinPath OUTPUT_ROOT job_id) n c) job_id =
          jpgCount fs job_id := by
        unfold jpgCount
        rw [hjpg]
      rw [list_images_ok _ _ _ _ hdir2, list_images_ok _ _ _ _ hdir, hjpg, hcnt]
    · have hdir2 : joinPath OUTPUT_ROOT job_id ∉
          (writeFile fs (joinPath OUTPUT_ROOT job_id) n c).dirs := hdir
      simp only [list_images]
      rw [if_neg hdir2, if_neg hdir]
  · intro r hr u hu
    by_cases hdir : joinPath OUTPUT_ROOT job_id ∈ fs.dirs
    · rw [list_images_ok _ _ _ _ hdir] at hr
      injection hr with hr
      subst hr
      simp only [List.mem_map] at hu
      obtain ⟨m, hm, rfl⟩ := hu
      refine ⟨m, ?_, rfl⟩
      have hm2 : m ∈ sortStrings (jpgNames fs job_id) :=
        List.mem_of_mem_drop (List.mem_of_mem_take hm)
      have hm3 : m ∈ List.filter (fun f => strEndsWith f ".jpg")
          (listdir fs (joinPath OUTPUT_ROOT job_id)) :=
        (sortStrings_perm _).mem_iff.mp hm2
      have hm4 := List.of_mem_filter hm3
      exact hm4
    · simp only [list_images] at hr
      rw [if_neg hdir] at hr
      exact Except.noConfusion hr

theorem claim_C10_witness :
    list_images (writeFile fsW (joinPath OUTPUT_ROOT "jobw") "video.mp4"
        (Content.bytes "v")) "jobw" 1 50 = list_images fsW "jobw" 1 50 :=
  (claim_C10 fsW "jobw" "video.mp4" (Content.bytes "v") 1 50 (by decide)).1

/-- Claim C3 (observed code behaviour): an upload whose extraction
fails leaves the partially populated job directory in place, and the
listing endpoint then exposes it as an existing job: starting from a
fresh output root, an upload for job job1 whose external process fails
after writing one partial frame returns the 500 error, yet listing
job1 afterwards succeeds and lists the partial frame instead of
refusing to expose the job. -/
theorem claim_C3_code_bug :
    ((upload_video fs0 "job1" "vid.mp4" "vdata" "scene"
        (ExtractOutcome.failure "boom" [("frame-000001.jpg", "p")])).2 =
      Except.error { code := 500, msg := "ffmpeg failed: boom" }) ∧
    ((list_images (upload_video fs0 "job1" "vid.mp4" "vdata" "scene"
        (ExtractOutcome.failure "boom" [("frame-000001.jpg", "p")])).1 "job1" 1 50).map
      ListResponse.images = Except.ok ["/output/job1/frame-000001.jpg"]) := by
  decide

end FrameExtractor
